import Mathlib

/-!
Verification of the keras2c compiler backend (`keras2c_main.py`, `io_parsing.py`)
against its natural-language specification.

The Python source is shallowly embedded: pure string-building functions become
Lean functions on `String`, file writes become explicit state passing over a
file-system value, Python exceptions become `Except`, and the `%.8e` decimal
serialization used by `np.savetxt` is modelled exactly over `ℚ`.

Components of the repository whose source files are not available
(`weights2c.py`, `layer2c.py`, `check_model.py`, `make_test_suite.py`) enter
only through opaque parameters carrying their results, as the specification
describes them.
-/

namespace K2C

/-! ## Generic string machinery

`pyJoin` embeds Python's `sep.join(list)`.  `pySplit` embeds Python's
`str.split(sep)` for a one-character separator (over `List Char`).
`hasSub` is an executable substring test used to state "the generated text
mentions ...". -/

/-- Embedding of Python `sep.join(xs)`: empty string on `[]`, otherwise the
elements interleaved with `sep`. -/
def pyJoin (sep : String) : List String → String
  | [] => ""
  | [x] => x
  | x :: y :: xs => x ++ sep ++ pyJoin sep (y :: xs)

/-- Embedding of Python `s.split(c)` on character lists: splits at every
occurrence of `c`, keeping empty fragments, never returning `[]`. -/
def pySplit (c : Char) : List Char → List (List Char)
  | [] => [[]]
  | a :: rest =>
    if a = c then [] :: pySplit c rest
    else
      match pySplit c rest with
      | [] => [[a]]
      | h :: t => (a :: h) :: t

/-- Concatenation of a list of strings (Python `+=` accumulation loops). -/
def strConcat : List String → String
  | [] => ""
  | s :: t => s ++ strConcat t

/-- Predicate `subAt small big`: `small` occurs at the very start of `big`. -/
def subAt : List Char → List Char → Bool
  | [], _ => true
  | _ :: _, [] => false
  | a :: as, b :: bs => a == b && subAt as bs

/-- Predicate `hasSub small big`: `small` occurs contiguously somewhere in `big`. -/
def hasSub (small : List Char) : List Char → Bool
  | [] => subAt small []
  | b :: rest => subAt small (b :: rest) || hasSub small rest

/-- Proposition `StrIn pat s`: the string `pat` occurs contiguously inside `s`. -/
def StrIn (pat s : String) : Prop := hasSub pat.data s.data = true

instance (pat s : String) : Decidable (StrIn pat s) := by
  unfold StrIn; infer_instance

/-! ## Data model

The opaque Model Graph Source: a model exposes a list of layers (each with a
type tag and its declared input/output tensor names) and the model-level
input/output tensors with their source names. -/

structure KTensor where
  name : String
deriving DecidableEq, Repr

structure KLayer where
  ltype : String
  inputs : List String
  outputs : List String
deriving DecidableEq, Repr

structure KModel where
  layers : List KLayer
  inputs : List KTensor
  outputs : List KTensor
deriving DecidableEq, Repr

/-! ## `io_parsing.py` -/

/-- Embedding of `layer_type`: the class-name tag of a layer. -/
def layer_type (layer : KLayer) : String := layer.ltype

/-- Models the host-framework accessor chain `layer.input.name`: it yields the
single input tensor's name, and fails (Python `AttributeError`) when the layer
does not have exactly one input tensor — for a multi-input layer the `.input`
attribute is a list, which has no `.name`. -/
def inputName (layer : KLayer) : Except String String :=
  match layer.inputs with
  | [t] => Except.ok t
  | _ => Except.error "AttributeError"

/-- Models the host-framework accessor chain `layer.output.name`, as
`inputName`. -/
def outputName (layer : KLayer) : Except String String :=
  match layer.outputs with
  | [t] => Except.ok t
  | _ => Except.error "AttributeError"

/-- Embedding of `get_layer_io_names`: empty lists for an `InputLayer`,
otherwise the singleton lists `[layer.input.name], [layer.output.name]`
(propagating the accessor's failure). -/
def get_layer_io_names (layer : KLayer) :
    Except String (List String × List String) :=
  if layer_type layer = "InputLayer" then Except.ok ([], [])
  else do
    let i ← inputName layer
    let o ← outputName layer
    Except.ok ([i], [o])

/-- The per-layer output lists, `[get_layer_io_names(layer)[1] for layer in
layers]`, propagating the first failure. -/
def layerOutputLists (layers : List KLayer) : Except String (List (List String)) :=
  layers.mapM (fun lay =>
    match get_layer_io_names lay with
    | Except.ok q => Except.ok q.2
    | Except.error e => Except.error e)

/-- Embedding of `get_all_io_names`: the first layer's io-name pair, plus every
layer's output list, flattened and deduplicated (`list(set(...))`; Python's set
iteration order is unspecified, deduplication is modelled by `List.dedup`).
Indexing `model.layers[0]` on an empty layer list is the Python `IndexError`. -/
def get_all_io_names (m : KModel) : Except String (List String) :=
  match m.layers with
  | [] => Except.error "IndexError"
  | l :: ls =>
    match get_layer_io_names l with
    | Except.error e => Except.error e
    | Except.ok p =>
      match layerOutputLists (l :: ls) with
      | Except.error e => Except.error e
      | Except.ok outs => Except.ok ((p.1 ++ p.2 ++ outs.flatten).dedup)

/-- The same collection as `get_all_io_names` without the deduplication step:
the first layer's input and output names followed by every layer's output
names. -/
def collectAllNames (m : KModel) : Except String (List String) :=
  match m.layers with
  | [] => Except.error "IndexError"
  | l :: ls =>
    match get_layer_io_names l with
    | Except.error e => Except.error e
    | Except.ok p =>
      match layerOutputLists (l :: ls) with
      | Except.error e => Except.error e
      | Except.ok outs => Except.ok (p.1 ++ p.2 ++ outs.flatten)

/-- Embedding of the name-normalization in `get_model_io_names`:
`name.split(':')[0].split('/')[0]`. -/
def stripName (s : String) : String :=
  ⟨(pySplit '/' ((pySplit ':' s.data).headD [])).headD []⟩

/-- Embedding of `get_model_io_names`: the model-level input and output source
names, each normalized by `stripName`, in declared order. -/
def get_model_io_names (m : KModel) : List String × List String :=
  (m.inputs.map (fun t => stripName t.name),
   m.outputs.map (fun t => stripName t.name))

/-- The specification's description of the normalization: everything from the
first `':'` and the first `'/'` onward removed. -/
def specStrip (s : String) : String :=
  ⟨s.data.takeWhile (fun a => !(a == ':') && !(a == '/'))⟩

/-- The specification's description of the whole-model name collection: every
name appearing as an input or output of any layer, together with the
model-level input tensor names. -/
def specAllNames (m : KModel) : List String :=
  (m.layers.map (fun l => l.inputs ++ l.outputs)).flatten ++
    m.inputs.map KTensor.name

/-! ## The `%.8e` serialization (`np.savetxt(fname, arr, fmt="%.8e")`)

`%.8e` prints a value as `d.dddddddd e±ee`: the magnitude is scaled into
`[1, 10)` by a power of ten and the scaled mantissa is rounded to 8 decimal
places, i.e. the printed number is the input rounded to 9 significant decimal
digits.  `savetxtRT` is the exact rational value the printed text denotes
(serialize-then-parse round trip); `fmt8e` is the printed text itself. -/

/-- Kernel-evaluable integer power of ten over `ℚ`. -/
def zpow10 (e : ℤ) : ℚ :=
  match e with
  | Int.ofNat n => (10 : ℚ) ^ n
  | Int.negSucc n => ((10 : ℚ) ^ (n + 1))⁻¹

/-- Round-trip value of `%.8e` for a positive rational: the magnitude rounded
to 9 significant decimal digits (8 digits after the point of the scaled
mantissa). -/
def rtPos (y : ℚ) : ℚ :=
  (round (y * zpow10 ((8 : ℤ) - Int.log 10 y)) : ℚ) * zpow10 (Int.log 10 y - 8)

/-- Exact value denoted by the `%.8e` rendering of `x`: zero for zero, and the
sign applied to the rounded magnitude otherwise. -/
def savetxtRT (x : ℚ) : ℚ :=
  if x = 0 then 0 else if 0 < x then rtPos x else -rtPos (-x)

/-- Number of decimal digits of `n` (1 for 0). -/
def digLen (n : Nat) : Nat := (Nat.toDigits 10 n).length

/-- Fuel-bounded search for the smallest `k` with `1 ≤ y * 10 ^ k`
(executable decimal exponent for magnitudes below one). -/
def upExp (fuel : Nat) (y : ℚ) : Nat :=
  match fuel with
  | 0 => 0
  | f + 1 => if 1 ≤ y then 0 else upExp f (y * 10) + 1

/-- Executable decimal exponent `e` of a positive rational, `10^e ≤ y <
10^(e+1)`: digit count of the integer part for `y ≥ 1`, downward search
otherwise. -/
def qDecExp (y : ℚ) : ℤ :=
  if 1 ≤ y then (digLen ⌊y⌋₊ : ℤ) - 1
  else -(upExp (digLen y.den) y : ℤ)

/-- Rounded 9-significant-digit mantissa (as an integer in `[10^8, 10^9)`) and
decimal exponent of a positive rational, carrying a mantissa that rounded up
to the next decade into the exponent. -/
def mantExp (y : ℚ) : ℕ × ℤ :=
  let e0 := qDecExp y
  let n0 := (round (y * zpow10 ((8 : ℤ) - e0))).toNat
  if n0 = 10 ^ 9 then ((10 : ℕ) ^ 8, e0 + 1) else (n0, e0)

/-- Rendering `d.dddddddd` of the 9-digit mantissa integer. -/
def renderMantissa (n : ℕ) : String :=
  String.mk [(Nat.toDigits 10 n).headD '0'] ++ "." ++
    String.mk ((Nat.toDigits 10 n).drop 1)

/-- Signed two-digit exponent rendering (`+dd` / `-dd`). -/
def renderExp (e : ℤ) : String :=
  (if e < 0 then "-" else "+") ++
    (if e.natAbs < 10 then "0" ++ String.mk (Nat.toDigits 10 e.natAbs)
     else String.mk (Nat.toDigits 10 e.natAbs))

/-- The text `%.8e` prints for `x` (C `printf` scientific format with 8
fractional mantissa digits and a signed two-digit exponent). -/
def fmt8e (x : ℚ) : String :=
  if x = 0 then "0.00000000e+00"
  else (if x < 0 then "-" else "") ++ renderMantissa (mantExp |x|).1 ++ "e" ++
    renderExp (mantExp |x|).2

/-- Embedding of `np.savetxt` on a one-dimensional array: each value is
formatted with `%.8e` and followed by a newline (a 1-D input is written as a
single column, so the `delimiter` argument never appears). -/
def savetxt1D (vals : List ℚ) : String :=
  strConcat (vals.map (fun v => fmt8e v ++ "\n"))

/-! ## File-system state

Artifact writes are explicit state passing: a file system is the list of
`(name, content)` writes in order; `lookupLast` reads a file (the most recent
write wins, matching `open(..., 'w+')` overwrite semantics). -/

structure FS where
  files : List (String × String)
deriving DecidableEq, Repr

def FS.write (fs : FS) (n content : String) : FS :=
  ⟨fs.files ++ [(n, content)]⟩

def FS.lookupLast (fs : FS) (n : String) : Option String :=
  (fs.files.reverse.find? (fun p => p.1 == n)).map (fun p => p.2)

/-- In-place transformation of one file's content (the `astyle -n file`
formatting step). -/
def FS.mapFile (fs : FS) (n : String) (g : String → String) : FS :=
  ⟨fs.files.map (fun p => if p.1 = n then (p.1, g p.2) else p)⟩

/-! ## `keras2c_main.py`

Results of the components whose sources are not available are opaque
parameters:

* `WeightsGen` — Modelled from the spec: `Weights2C(model, function_name,
  malloc).write_weights(...)` (file `weights2c.py` is not under `src/`);
  returns the three generated-text partitions, with the external/"malloc"
  partition as a map from each external weight group name to the tensor's
  flattened values.
* `LayersGen` — Modelled from the spec: `Layers2C(model,
  malloc).write_layers(...)` (file `layer2c.py` is not under `src/`); returns
  the lowered body text.
* `CheckFn` — Modelled from the spec: `check_model(model, function_name)`
  (file `check_model.py` is not under `src/`); raises a descriptive error on
  the first unsupported layer or configuration, and is silent on success.
* `TestSuiteGen` — Modelled from the spec: `make_test_suite(...)` (file
  `make_test_suite.py` is not under `src/`); returns the harness text written
  to `F_test_suite.c`.
* `LoadFn` — the host framework's `models.load_model`, may fail.
-/

abbrev WeightsGen := KModel → String → Bool → String × List (String × List ℚ) × String

abbrev LayersGen := KModel → Bool → String

abbrev CheckFn := KModel → String → Except String Unit

abbrev TestSuiteGen := KModel → String → List String → Nat → Bool → String

abbrev LoadFn := String → Except String KModel

def inParam (n : String) : String := "k2c_tensor* " ++ n ++ "_input"

def outParam (n : String) : String := "k2c_tensor* " ++ n ++ "_output"

def weightParam (k : String) : String := "float* " ++ k

/-- Embedding of the main-function signature assembly (`model2c`, the
`function_signature` variable): inputs joined with `", "`, a `", "`, outputs
joined with `", "`, and — only when external weight groups exist — a `","`
followed by their pointer parameters joined with `","`. -/
def functionSignature (F : String) (ins outs keys : List String) : String :=
  "void " ++ F ++ "(" ++ pyJoin ", " (ins.map inParam) ++ ", " ++
    pyJoin ", " (outs.map outParam) ++
    (if keys = [] then "" else "," ++ pyJoin "," (keys.map weightParam)) ++ ")"

/-- Embedding of `gen_function_reset`: `(signature, definition)`. -/
def gen_function_reset (F : String) : String × String :=
  let sig := "void " ++ F ++ "_reset_states()"
  (sig,
   sig ++ " \x7b \n\n" ++ "memset(&" ++ F ++ "_states,0,sizeof(" ++ F ++
     "_states)); \n" ++ "\x7d \n\n")

/-- One payload-loading statement of the initialize function. -/
def loadStmt (F k : String) (sz : Nat) : String :=
  "*" ++ k ++ " = k2c_read_array(\"" ++ (F ++ k ++ ".csv") ++ "\"," ++
    toString sz ++ "); \n"

/-- Embedding of `gen_function_initialize`: builds the signature and body and
writes one payload file `F ++ key ++ ".csv"` per external weight group
(`np.savetxt(fname, malloc_vars[key], fmt="%.8e", delimiter=',')`).
Returns `(signature, definition, file system after the writes)`. -/
def gen_function_initialize (F : String) (mv : List (String × List ℚ))
    (fs : FS) : String × String × FS :=
  let sig := "void " ++ F ++ "_initialize(" ++
    pyJoin "," (mv.map (fun kv => "float** " ++ kv.1 ++ " \n")) ++ ")"
  let fs' := mv.foldl (fun acc kv => acc.write (F ++ kv.1 ++ ".csv") (savetxt1D kv.2)) fs
  let body := strConcat (mv.map (fun kv => loadStmt F kv.1 kv.2.length))
  (sig, sig ++ " \x7b \n\n" ++ body ++ "\x7d \n\n", fs')

/-- One deallocation statement of the terminate function. -/
def freeStmt (k : String) : String := "free(" ++ k ++ "); \n"

/-- Embedding of `gen_function_terminate`: `(signature, definition)`. -/
def gen_function_terminate (F : String) (keys : List String) : String × String :=
  let sig := "void " ++ F ++ "_terminate(" ++
    pyJoin "," (keys.map weightParam) ++ ")"
  (sig, sig ++ " \x7b \n\n" ++ strConcat (keys.map freeStmt) ++ "\x7d \n\n")

def includesText : String :=
  "#include <math.h> \n" ++ "#include <string.h> \n" ++
    "#include \"./k2c/k2c_include.h\" \n" ++
    "#include \"./k2c/k2c_tensor_include.h\" \n\n"

/-- Everything `model2c` writes to `F.c` before the (conditional) reset
function. -/
def srcBodyText (static_vars sig stack_vars layers init_fun term_fun : String) :
    String :=
  includesText ++ static_vars ++ "\n\n" ++ sig ++ " \x7b \n\n" ++ stack_vars ++
    layers ++ "\n \x7d \n\n" ++ init_fun ++ term_fun

/-- Everything `model2c` writes to `F.h` before the (conditional) reset
declaration. -/
def hdrBodyText (sig init_sig term_sig : String) : String :=
  "#pragma once \n" ++ "#include \"./k2c/k2c_tensor_include.h\" \n" ++
    sig ++ "; \n" ++ init_sig ++ "; \n" ++ term_sig ++ "; \n"

/-- Warning printed when the external formatter is missing
(`FileNotFoundError` from `subprocess.run(['astyle', ...])`). -/
def astyleWarning (F : String) : String :=
  "astyle not found, " ++ (F ++ ".h") ++ " and " ++ (F ++ ".c") ++
    " will not be auto-formatted"

/-- Result of `model2c`: final file system, warnings printed, and the returned
pair `(malloc_vars.keys(), stateful)`. -/
structure M2COut where
  fs : FS
  warnings : List String
  extVars : List String
  stateful : Bool
deriving Repr

/-- The main-function signature `model2c` builds for a given model and weight
partition. -/
def m2cSig (weightsGen : WeightsGen) (m : KModel) (F : String) (malloc : Bool) :
    String :=
  functionSignature F (get_model_io_names m).1 (get_model_io_names m).2
    ((weightsGen m F malloc).2.1.map Prod.fst)

/-- The statefulness flag of `model2c`: `len(static_vars) > 0`. -/
def m2cStateful (weightsGen : WeightsGen) (m : KModel) (F : String)
    (malloc : Bool) : Bool :=
  decide (0 < (weightsGen m F malloc).2.2.length)

/-- The content `model2c` writes to `F.c` up to (excluding) the conditional
reset function. -/
def m2cSrcBody (weightsGen : WeightsGen) (layersGen : LayersGen) (m : KModel)
    (F : String) (malloc : Bool) (fs : FS) : String :=
  srcBodyText (weightsGen m F malloc).2.2 (m2cSig weightsGen m F malloc)
    (weightsGen m F malloc).1 (layersGen m malloc)
    ( gen_function_initialize F (weightsGen m F malloc).2.1 fs).2.1
    (gen_function_terminate F ((weightsGen m F malloc).2.1.map Prod.fst)).2

/-- The full content `model2c` writes to `F.c`. -/
def m2cSrcText (weightsGen : WeightsGen) (layersGen : LayersGen) (m : KModel)
    (F : String) (malloc : Bool) (fs : FS) : String :=
  m2cSrcBody weightsGen layersGen m F malloc fs ++
    (if m2cStateful weightsGen m F malloc then (gen_function_reset F).2 else "")

/-- The content `model2c` writes to `F.h` up to (excluding) the conditional
reset declaration. -/
def m2cHdrBody (weightsGen : WeightsGen) (m : KModel) (F : String)
    (malloc : Bool) (fs : FS) : String :=
  hdrBodyText (m2cSig weightsGen m F malloc)
    ( gen_function_initialize F (weightsGen m F malloc).2.1 fs).1
    (gen_function_terminate F ((weightsGen m F malloc).2.1.map Prod.fst)).1

/-- The full content `model2c` writes to `F.h`. -/
def m2cHdrText (weightsGen : WeightsGen) (m : KModel) (F : String)
    (malloc : Bool) (fs : FS) : String :=
  m2cHdrBody weightsGen m F malloc fs ++
    (if m2cStateful weightsGen m F malloc then (gen_function_reset F).1 ++ "; \n"
     else "")

/-- Embedding of `model2c`.  `astyle` says whether the external formatter can
be spawned; when it can, `fmtExt` is its in-place effect on each formatted
file, and when it cannot, the `FileNotFoundError` is caught and a warning is
recorded instead (non-fatal). -/
def model2c (weightsGen : WeightsGen) (layersGen : LayersGen)
    (fmtExt : String → String) (astyle : Bool) (m : KModel) (F : String)
    (malloc : Bool) (fs : FS) : M2COut :=
  let keys := (weightsGen m F malloc).2.1.map Prod.fst
  let stateful := m2cStateful weightsGen m F malloc
  let fs2 := (( gen_function_initialize F (weightsGen m F malloc).2.1 fs).2.2.write
      (F ++ ".c") (m2cSrcText weightsGen layersGen m F malloc fs)).write
      (F ++ ".h") (m2cHdrText weightsGen m F malloc fs)
  if astyle then
    ⟨(fs2.mapFile (F ++ ".h") fmtExt).mapFile (F ++ ".c") fmtExt, [], keys, stateful⟩
  else
    ⟨fs2, [astyleWarning F], keys, stateful⟩

/-- The `model` argument of `k2c`: a path string, a host-framework model
instance, or anything else. -/
inductive ModelArg
  | path (p : String)
  | model (m : KModel)
  | other
deriving DecidableEq

/-- Errors `k2c` can surface, by origin: the explicit `ValueError` of the
type dispatch, a failure of `models.load_model`, or a failure of
`check_model`. -/
inductive K2CErr
  | valueError
  | loadError (msg : String)
  | checkError (msg : String)
deriving DecidableEq, Repr

/-- The part of `k2c` after a model instance is in hand: run the compatibility
check, then generate all artifacts. -/
def k2cBody (check : CheckFn) (weightsGen : WeightsGen) (layersGen : LayersGen)
    (testSuiteGen : TestSuiteGen) (fmtExt : String → String) (astyle : Bool)
    (m : KModel) (F : String) (malloc : Bool) (numTests : Nat) (fs : FS) :
    FS × Except K2CErr Unit :=
  match check m F with
  | Except.error e => (fs, Except.error (K2CErr.checkError e))
  | Except.ok _ =>
    let r := model2c weightsGen layersGen fmtExt astyle m F malloc fs
    let fs' := if 0 < numTests then
        r.fs.write (F ++ "_test_suite.c") (testSuiteGen m F r.extVars numTests r.stateful)
      else r.fs
    (fs', Except.ok ())

/-- Embedding of `k2c`: type-dispatch on the model argument (`str` → load,
model instance → use, anything else → `ValueError`), then `k2cBody`. -/
def k2c (load : LoadFn) (check : CheckFn) (weightsGen : WeightsGen)
    (layersGen : LayersGen) (testSuiteGen : TestSuiteGen)
    (fmtExt : String → String) (astyle : Bool) (arg : ModelArg) (F : String)
    (malloc : Bool) (numTests : Nat) (fs : FS) : FS × Except K2CErr Unit :=
  match arg with
  | ModelArg.other => (fs, Except.error K2CErr.valueError)
  | ModelArg.path p =>
    match load p with
    | Except.error e => (fs, Except.error (K2CErr.loadError e))
    | Except.ok m =>
      k2cBody check weightsGen layersGen testSuiteGen fmtExt astyle m F malloc numTests fs
  | ModelArg.model m =>
    k2cBody check weightsGen layersGen testSuiteGen fmtExt astyle m F malloc numTests fs


/-! ## General lemmas -/

theorem subAt_iff (small big : List Char) :
    subAt small big = true ↔ ∃ r, big = small ++ r := by
  induction small generalizing big with
  | nil => simp [subAt]
  | cons a as ih =>
    cases big with
    | nil => simp [subAt]
    | cons b bs =>
      simp only [subAt, Bool.and_eq_true, beq_iff_eq, ih, List.cons_append,
        List.cons.injEq]
      constructor
      · rintro ⟨h1, r, h2⟩; exact ⟨r, h1.symm, h2⟩
      · rintro ⟨r, h1, h2⟩; exact ⟨h1.symm, r, h2⟩

theorem hasSub_iff (small big : List Char) :
    hasSub small big = true ↔ ∃ u v, big = u ++ small ++ v := by
  induction big with
  | nil =>
    simp only [hasSub, subAt_iff]
    constructor
    · rintro ⟨r, h⟩; exact ⟨[], r, by simpa using h⟩
    · rintro ⟨u, v, h⟩
      rcases List.append_eq_nil.mp (List.append_eq_nil.mp h.symm).1 with ⟨h1, h2⟩
      exact ⟨v, by simp [h2, (List.append_eq_nil.mp h.symm).2]⟩
  | cons b bs ih =>
    simp only [hasSub, Bool.or_eq_true, subAt_iff, ih]
    constructor
    · rintro (⟨r, h⟩ | ⟨u, v, h⟩)
      · exact ⟨[], r, by simpa using h⟩
      · exact ⟨b :: u, v, by simp [h]⟩
    · rintro ⟨u, v, h⟩
      cases u with
      | nil => exact Or.inl ⟨v, by simpa using h⟩
      | cons x xs =>
        simp only [List.cons_append, List.cons.injEq] at h
        exact Or.inr ⟨xs, v, h.2⟩

theorem StrIn_iff (pat s : String) :
    StrIn pat s ↔ ∃ u v, s.data = u ++ pat.data ++ v := by
  unfold StrIn; exact hasSub_iff _ _

/-- A substring of `b` is a substring of `a ++ b ++ c`. -/
theorem StrIn.of_middle {pat b : String} (a c : String) (h : StrIn pat b) :
    StrIn pat (a ++ b ++ c) := by
  rw [StrIn_iff] at h ⊢
  rcases h with ⟨u, v, h⟩
  exact ⟨a.data ++ u, v ++ c.data, by simp [String.data_append, h]⟩

theorem pySplit_ne_nil (c : Char) (l : List Char) : pySplit c l ≠ [] := by
  induction l with
  | nil => simp [pySplit]
  | cons a rest ih =>
    unfold pySplit
    by_cases h : a = c
    · simp [h]
    · simp only [if_neg h]
      cases hs : pySplit c rest with
      | nil => simp
      | cons x xs => simp

/-- The first fragment of a Python split is the prefix before the first
occurrence of the separator. -/
theorem pySplit_head (c : Char) (l : List Char) :
    (pySplit c l).headD [] = l.takeWhile (fun a => !(a == c)) := by
  induction l with
  | nil => simp [pySplit]
  | cons a rest ih =>
    unfold pySplit
    by_cases h : a = c
    · simp [h, List.takeWhile]
    · simp only [if_neg h]
      cases hs : pySplit c rest with
      | nil => exact absurd hs (pySplit_ne_nil c rest)
      | cons x xs =>
        have hx : x = rest.takeWhile (fun a => !(a == c)) := by
          simpa [hs] using ih
        have hbeq : (a == c) = false := beq_eq_false_iff_ne.mpr h
        simp [List.takeWhile, hbeq, hx]

theorem takeWhile_takeWhile (p q : Char → Bool) (l : List Char) :
    (l.takeWhile p).takeWhile q = l.takeWhile (fun a => p a && q a) := by
  induction l with
  | nil => simp
  | cons a rest ih =>
    by_cases hp : p a
    · by_cases hq : q a <;> simp [List.takeWhile, hp, hq, ih]
    · simp [List.takeWhile, hp]

theorem get_all_io_names_eq_dedup (m : KModel) :
    get_all_io_names m = (collectAllNames m).map List.dedup := by
  unfold get_all_io_names collectAllNames
  cases m.layers with
  | nil => rfl
  | cons l ls =>
    cases hp : get_layer_io_names l with
    | error e => simp [hp, Except.map]
    | ok p =>
      cases ho : layerOutputLists (l :: ls) with
      | error e => simp [hp, ho, Except.map]
      | ok outs => simp [hp, ho, Except.map]

theorem stripName_eq_specStrip (s : String) : stripName s = specStrip s := by
  unfold stripName specStrip
  rw [pySplit_head, pySplit_head, takeWhile_takeWhile]

theorem zpow10_eq (e : ℤ) : zpow10 e = (10 : ℚ) ^ e := by
  cases e with
  | ofNat n => simp [zpow10]
  | negSucc n => simp [zpow10, zpow_negSucc]

/-! Evaluation helpers: rational arithmetic is not kernel-reducible here
(`Rat.mul` and friends are irreducible), so concrete serialization values are
established through `norm_num` with these lemmas. -/

theorem round_rat_eq (x : ℚ) (n : ℤ) (h₁ : (n : ℚ) ≤ x + 1 / 2)
    (h₂ : x + 1 / 2 < n + 1) : round x = n := by
  rw [round_eq]
  exact Int.floor_eq_iff.mpr ⟨h₁, h₂⟩

theorem natFloor_eval (x : ℚ) (m : ℕ) (h1 : (m : ℚ) ≤ x) (h2 : x < m + 1) :
    ⌊x⌋₊ = m := by
  have hx : 0 ≤ x := le_trans (by positivity) h1
  exact (Nat.floor_eq_iff hx).mpr ⟨h1, h2⟩

theorem intLog_eval (x : ℚ) (m k : ℕ) (h1 : 1 ≤ x) (hm : ⌊x⌋₊ = m)
    (hp : 10 ^ k ≤ m) (hp2 : m < 10 ^ (k + 1)) : Int.log 10 x = k := by
  rw [Int.log_of_one_le_right 10 h1, hm, Nat.log_eq_of_pow_le_of_lt_pow hp hp2]

theorem qDecExp_of_one_le (y : ℚ) (m : ℕ) (h1 : 1 ≤ y) (hm : ⌊y⌋₊ = m) :
    qDecExp y = (digLen m : ℤ) - 1 := by
  unfold qDecExp; rw [if_pos h1, hm]

theorem mantExp_eq (y : ℚ) (e : ℤ) (n : ℕ) (he : qDecExp y = e)
    (hn : round (y * zpow10 (8 - e)) = (n : ℤ)) (hne : n ≠ 10 ^ 9) :
    mantExp y = (n, e) := by
  unfold mantExp
  simp only [he, hn, Int.toNat_natCast]
  rw [if_neg (by simpa using hne)]

theorem fmt8e_eval (x : ℚ) (n : ℕ) (e : ℤ) (h0 : x ≠ 0) (hneg : ¬x < 0)
    (hme : mantExp |x| = (n, e)) :
    fmt8e x = "" ++ renderMantissa n ++ "e" ++ renderExp e := by
  unfold fmt8e
  rw [if_neg h0, if_neg hneg, hme]

theorem savetxtRT_pos_eval (x : ℚ) (e n : ℤ) (hx : 0 < x)
    (he : Int.log 10 x = e) (hn : round (x * zpow10 (8 - e)) = n) :
    savetxtRT x = n * zpow10 (e - 8) := by
  unfold savetxtRT rtPos
  rw [if_neg hx.ne', if_pos hx, he, hn]

/-- Packaged concrete evaluation of `fmt8e` for a value with magnitude at least
one: `m` is the integer part, `n` the rounded 9-digit mantissa integer, `e` the
decimal exponent, `c` the numeric value of `10^(8-e)`. -/
theorem fmt8e_evalNat (x : ℚ) (m n : ℕ) (e : ℤ) (c : ℚ)
    (hm1 : (m : ℚ) ≤ x) (hm2 : x < m + 1) (hx1 : 1 ≤ x)
    (hde : (digLen m : ℤ) - 1 = e)
    (hzp : zpow10 (8 - e) = c)
    (hr1 : (n : ℚ) ≤ x * c + 1 / 2) (hr2 : x * c + 1 / 2 < n + 1)
    (hne : n ≠ 10 ^ 9) :
    fmt8e x = "" ++ renderMantissa n ++ "e" ++ renderExp e := by
  have hfl := natFloor_eval x m hm1 hm2
  have hq : qDecExp x = e := by rw [qDecExp_of_one_le x m hx1 hfl, hde]
  have hr : round (x * zpow10 (8 - e)) = (n : ℤ) := by
    rw [hzp]; exact round_rat_eq _ _ hr1 hr2
  have hx0 : (0 : ℚ) < x := lt_of_lt_of_le zero_lt_one hx1
  have hme : mantExp |x| = (n, e) := by
    rw [abs_of_pos hx0]; exact mantExp_eq x e n hq hr hne
  exact fmt8e_eval x n e hx0.ne' (not_lt.mpr hx0.le) hme

theorem StrIn_refl (s : String) : StrIn s s :=
  (StrIn_iff s s).mpr ⟨[], [], by simp⟩

theorem StrIn.of_append_right {pat b : String} (a : String) (h : StrIn pat b) :
    StrIn pat (a ++ b) := by
  rw [StrIn_iff] at h ⊢
  rcases h with ⟨u, v, h⟩
  exact ⟨a.data ++ u, v, by simp [String.data_append, h]⟩

theorem StrIn.of_append_left {pat a : String} (b : String) (h : StrIn pat a) :
    StrIn pat (a ++ b) := by
  rw [StrIn_iff] at h ⊢
  rcases h with ⟨u, v, h⟩
  exact ⟨u, v ++ b.data, by simp [String.data_append, h]⟩

theorem StrIn_strConcat_of_mem {x : String} {l : List String} (h : x ∈ l) :
    StrIn x (strConcat l) := by
  induction l with
  | nil => cases h
  | cons y t ih =>
    rcases List.mem_cons.mp h with rfl | hmem
    · exact StrIn.of_append_left _ (StrIn_refl x)
    · exact StrIn.of_append_right _ (ih hmem)

/-- Appending to a common front preserves distinctness: `F ++ s` and `F ++ t` differ whenever `s` and `t` do. -/
theorem strAppend_ne (F : String) {s t : String} (h : s ≠ t) :
    F ++ s ≠ F ++ t := by
  intro he
  apply h
  have : (F ++ s).data = (F ++ t).data := by rw [he]
  simp only [String.data_append] at this
  exact String.ext (List.append_cancel_left this)

/-- A string is non-empty exactly when its length is positive. -/
theorem strLength_pos_iff (s : String) : 0 < s.length ↔ s ≠ "" := by
  constructor
  · intro h he
    rw [he] at h
    simp at h
  · intro h
    cases s with
    | mk data =>
      cases data with
      | nil => exact absurd (by decide) h
      | cons a t => simp

theorem pyJoin_append (sep : String) (xs ys : List String) (hx : xs ≠ [])
    (hy : ys ≠ []) :
    pyJoin sep (xs ++ ys) = pyJoin sep xs ++ sep ++ pyJoin sep ys := by
  induction xs with
  | nil => exact absurd rfl hx
  | cons a t ih =>
    cases t with
    | nil =>
      cases ys with
      | nil => exact absurd rfl hy
      | cons b u => simp [pyJoin]
    | cons c u =>
      have h := ih (by simp)
      show pyJoin sep (a :: ((c :: u) ++ ys)) = _
      have h2 : pyJoin sep (a :: ((c :: u) ++ ys)) =
          a ++ sep ++ pyJoin sep ((c :: u) ++ ys) := rfl
      rw [h2, h]
      show _ = a ++ sep ++ pyJoin sep (c :: u) ++ sep ++ pyJoin sep ys
      simp [String.append_assoc]

theorem FS.lookupLast_write_self (fs : FS) (n c : String) :
    (fs.write n c).lookupLast n = some c := by
  unfold FS.write FS.lookupLast
  simp

theorem FS.lookupLast_write_other (fs : FS) (n c n' : String) (h : n ≠ n') :
    (fs.write n c).lookupLast n' = fs.lookupLast n' := by
  unfold FS.write FS.lookupLast
  simp [List.find?_cons, beq_eq_false_iff_ne.mpr h]

/-- The payload files `gen_function_initialize` adds to the file system:
one `F ++ key ++ ".csv"` per external weight group, in order, holding the
`%.8e` serialization of the group's flattened values. -/
theorem genInit_files (F : String) (mv : List (String × List ℚ)) (fs : FS) :
    ( gen_function_initialize F mv fs).2.2.files =
      fs.files ++ mv.map (fun kv => (F ++ kv.1 ++ ".csv", savetxt1D kv.2)) := by
  unfold gen_function_initialize
  induction mv generalizing fs with
  | nil => simp
  | cons kv t ih =>
    simp only [List.foldl_cons, List.map_cons]
    rw [ih]
    simp [FS.write]


/-- Half-ulp bound of the `%.8e` round trip on a positive magnitude: the error
is at most half of the last printed significant digit's place value. -/
theorem rtPos_abs_sub (y : ℚ) (_hy : 0 < y) :
    |rtPos y - y| ≤ (1 / 2) * (10 : ℚ) ^ (Int.log 10 y - 8) := by
  have h10 : (10 : ℚ) ≠ 0 := by norm_num
  unfold rtPos
  rw [zpow10_eq, zpow10_eq]
  set e := Int.log 10 y with he
  set z := y * (10 : ℚ) ^ ((8 : ℤ) - e) with hz
  have hyz : y = z * (10 : ℚ) ^ (e - 8) := by
    rw [hz, mul_assoc, ← zpow_add₀ h10]
    have hee : (8 : ℤ) - e + (e - 8) = 0 := by ring
    rw [hee, zpow_zero, mul_one]
  calc |(round z : ℚ) * (10 : ℚ) ^ (e - 8) - y|
      = |((round z : ℚ) - z) * (10 : ℚ) ^ (e - 8)| := by
        rw [hyz]; congr 1; ring
    _ = |(round z : ℚ) - z| * (10 : ℚ) ^ (e - 8) := by
        rw [abs_mul, abs_of_pos (zpow_pos (by norm_num : (0 : ℚ) < 10) (e - 8))]
    _ ≤ (1 / 2) * (10 : ℚ) ^ (e - 8) := by
        apply mul_le_mul_of_nonneg_right _
          (zpow_pos (by norm_num : (0 : ℚ) < 10) (e - 8)).le
        rw [abs_sub_comm]
        exact abs_sub_round z

/-- Half-ulp bound of the `%.8e` round trip for any non-zero value. -/
theorem savetxtRT_abs_sub (x : ℚ) (hx : x ≠ 0) :
    |savetxtRT x - x| ≤ (1 / 2) * (10 : ℚ) ^ (Int.log 10 |x| - 8) := by
  rcases lt_trichotomy x 0 with hneg | hzero | hpos
  · have hax : |x| = -x := abs_of_neg hneg
    have h1 : savetxtRT x = -rtPos (-x) := by
      unfold savetxtRT
      rw [if_neg hx, if_neg (not_lt.mpr hneg.le)]
    have h2 := rtPos_abs_sub (-x) (neg_pos.mpr hneg)
    rw [h1, hax]
    calc |(-rtPos (-x)) - x| = |rtPos (-x) - (-x)| := by
          rw [← abs_neg]; congr 1; ring
      _ ≤ (1 / 2) * (10 : ℚ) ^ (Int.log 10 (-x) - 8) := h2
  · exact absurd hzero hx
  · have hax : |x| = x := abs_of_pos hpos
    have h1 : savetxtRT x = rtPos x := by
      unfold savetxtRT
      rw [if_neg hx, if_pos hpos]
    rw [h1, hax]
    exact rtPos_abs_sub x hpos

theorem m2cStateful_iff (wg : WeightsGen) (m : KModel) (F : String)
    (malloc : Bool) :
    m2cStateful wg m F malloc = true ↔ (wg m F malloc).2.2 ≠ "" := by
  unfold m2cStateful
  rw [decide_eq_true_eq]
  exact strLength_pos_iff _

/-- The reset marker `F ++ "_reset_states"` occurs in the reset signature. -/
theorem StrIn_reset_sig (F : String) :
    StrIn (F ++ "_reset_states") ((gen_function_reset F).1) := by
  have h : (gen_function_reset F).1 =
      "void " ++ (F ++ "_reset_states") ++ "()" := by
    apply String.ext
    have hsplit : ("_reset_states()" : String).data =
        ("_reset_states" : String).data ++ ("()" : String).data := by decide
    simp [gen_function_reset, String.data_append, hsplit]
  rw [h]
  exact StrIn.of_middle "void " "()" (StrIn_refl _)

/-- The reset marker `F ++ "_reset_states"` occurs in the reset definition. -/
theorem StrIn_reset_fun (F : String) :
    StrIn (F ++ "_reset_states") ((gen_function_reset F).2) := by
  have hsig := StrIn_reset_sig F
  simp only [gen_function_reset] at hsig ⊢
  exact StrIn.of_append_left _ (StrIn.of_append_left _ (StrIn.of_append_left _
    (StrIn.of_append_left _ (StrIn.of_append_left _ (StrIn.of_append_left _
      (StrIn.of_append_left _ hsig))))))

theorem fmt8e_one : fmt8e 1 = "1.00000000e+00" := by
  have hz : zpow10 ((8 : ℤ) - 0) = ((100000000 : ℕ) : ℚ) := by
    rw [zpow10_eq]
    norm_num
  rw [fmt8e_evalNat 1 1 100000000 0 ((100000000 : ℕ) : ℚ) (by norm_num)
    (by norm_num) (by norm_num) (by decide) hz (by norm_num) (by norm_num)
    (by norm_num)]
  decide

theorem fmt8e_two : fmt8e 2 = "2.00000000e+00" := by
  have hz : zpow10 ((8 : ℤ) - 0) = ((100000000 : ℕ) : ℚ) := by
    rw [zpow10_eq]
    norm_num
  rw [fmt8e_evalNat 2 2 200000000 0 ((100000000 : ℕ) : ℚ) (by norm_num)
    (by norm_num) (by norm_num) (by decide) hz (by norm_num) (by norm_num)
    (by norm_num)]
  decide

/-! ## Claims -/

/-- C9: `get_model_io_names` returns two ordered lists with exactly one name
per model-level input and one per model-level output, in declared order, each
name being the source name stripped of everything from the first `':'` and the
first `'/'` onward. -/
theorem c9_model_io_names (m : KModel) :
    (get_model_io_names m).1.length = m.inputs.length ∧
    (get_model_io_names m).2.length = m.outputs.length ∧
    (get_model_io_names m).1 = m.inputs.map (fun t => specStrip t.name) ∧
    (get_model_io_names m).2 = m.outputs.map (fun t => specStrip t.name) := by
  refine ⟨?_, ?_, ?_, ?_⟩ <;>
    simp [get_model_io_names, stripName_eq_specStrip]

/-- C4: the generated main-function signature lists its parameters in the
fixed order: one tensor-handle parameter per model input (in order), then one
per model output (in order), then — only when external weight groups exist —
one pointer parameter per external weight group in declaration order.  The
input and output parameters form one comma-separated sequence in exactly that
concatenated order, and the weight pointers follow it. -/
theorem c4_signature_order (F : String) (ins outs keys : List String)
    (hi : ins ≠ []) (ho : outs ≠ []) :
    functionSignature F ins outs keys =
      "void " ++ F ++ "(" ++
        pyJoin ", " (ins.map inParam ++ outs.map outParam) ++
        (if keys = [] then ""
         else "," ++ pyJoin "," (keys.map weightParam)) ++ ")" := by
  unfold functionSignature
  rw [pyJoin_append ", " (ins.map inParam) (outs.map outParam)
    (by simpa using hi) (by simpa using ho)]
  simp [String.append_assoc]

/-- C4 witness: a concrete signature, via the order theorem, rendering as
`void f(k2c_tensor* a_input, k2c_tensor* b_output,float* w)`. -/
theorem c4_signature_order_witness :
    functionSignature "f" ["a"] ["b"] ["w"] =
      "void " ++ "f" ++ "(" ++
        pyJoin ", " (["a"].map inParam ++ ["b"].map outParam) ++
        (if (["w"] : List String) = [] then ""
         else "," ++ pyJoin "," (["w"].map weightParam)) ++ ")" ∧
    functionSignature "f" ["a"] ["b"] ["w"] =
      "void f(k2c_tensor* a_input, k2c_tensor* b_output,float* w)" :=
  ⟨c4_signature_order "f" ["a"] ["b"] ["w"] (by decide) (by decide), by decide⟩

/-- C6: the compatibility check gates every artifact write — when
`check_model` raises, `k2c` surfaces that error and the file system is
exactly the initial one (no `.c`, `.h`, payload, or test-harness file was
written), whether the model was passed directly or loaded from a path. -/
theorem c6_check_gates_all_writes (load : LoadFn) (check : CheckFn)
    (wg : WeightsGen) (lg : LayersGen) (ts : TestSuiteGen)
    (fmtExt : String → String) (astyle : Bool) (arg : ModelArg) (F : String)
    (malloc : Bool) (numTests : Nat) (fs : FS) (m : KModel) (e : String)
    (hm : arg = ModelArg.model m ∨ ∃ p, arg = ModelArg.path p ∧ load p = Except.ok m)
    (hc : check m F = Except.error e) :
    k2c load check wg lg ts fmtExt astyle arg F malloc numTests fs =
      (fs, Except.error (K2CErr.checkError e)) := by
  rcases hm with rfl | ⟨p, rfl, hp⟩
  · simp [k2c, k2cBody, hc]
  · simp [k2c, hp, k2cBody, hc]

/-- C6 witness: a failing check on a concrete invocation leaves the file
system untouched. -/
theorem c6_check_gates_all_writes_witness :
    k2c (fun _ => Except.error "") (fun _ _ => Except.error "bad layer")
      (fun _ _ _ => ("", [], "")) (fun _ _ => "") (fun _ _ _ _ _ => "")
      id true (ModelArg.model ⟨[], [], []⟩) "f" false 10 ⟨[]⟩ =
      (⟨[]⟩, Except.error (K2CErr.checkError "bad layer")) :=
  c6_check_gates_all_writes (fun _ => Except.error "")
    (fun _ _ => Except.error "bad layer") (fun _ _ _ => ("", [], ""))
    (fun _ _ => "") (fun _ _ _ _ _ => "") id true (ModelArg.model ⟨[], [], []⟩)
    "f" false 10 ⟨[]⟩ ⟨[], [], []⟩ "bad layer" (Or.inl rfl) rfl

/-- C10: `k2c` yields the type-dispatch `ValueError` exactly when its model
argument is neither a path string nor a model instance, and in that case it
returns before the compatibility check (the result does not depend on `check`)
and before any artifact write (the file system is unchanged). -/
theorem c10_value_error_iff (load : LoadFn) (check : CheckFn) (wg : WeightsGen)
    (lg : LayersGen) (ts : TestSuiteGen) (fmtExt : String → String)
    (astyle : Bool) (arg : ModelArg) (F : String) (malloc : Bool)
    (numTests : Nat) (fs : FS) :
    ((k2c load check wg lg ts fmtExt astyle arg F malloc numTests fs).2 =
        Except.error K2CErr.valueError ↔ arg = ModelArg.other) ∧
    (arg = ModelArg.other →
      k2c load check wg lg ts fmtExt astyle arg F malloc numTests fs =
        (fs, Except.error K2CErr.valueError)) := by
  constructor
  · constructor
    · intro h
      cases arg with
      | other => rfl
      | path p =>
        exfalso
        cases hp : load p with
        | error e => simp [k2c, hp] at h
        | ok m =>
          cases hc : check m F with
          | error e => simp [k2c, hp, k2cBody, hc] at h
          | ok u => simp [k2c, hp, k2cBody, hc] at h
      | model m =>
        exfalso
        cases hc : check m F with
        | error e => simp [k2c, k2cBody, hc] at h
        | ok u => simp [k2c, k2cBody, hc] at h
    · rintro rfl; rfl
  · rintro rfl; rfl

/-- C10 witness: a non-model, non-path argument is rejected with `ValueError`
on a concrete invocation, with the file system unchanged. -/
theorem c10_value_error_iff_witness :
    k2c (fun _ => Except.error "") (fun _ _ => Except.ok ())
      (fun _ _ _ => ("", [], "")) (fun _ _ => "") (fun _ _ _ _ _ => "")
      id true ModelArg.other "f" false 10 ⟨[]⟩ =
      (⟨[]⟩, Except.error K2CErr.valueError) :=
  (c10_value_error_iff (fun _ => Except.error "") (fun _ _ => Except.ok ())
    (fun _ _ _ => ("", [], "")) (fun _ _ => "") (fun _ _ _ _ _ => "")
    id true ModelArg.other "f" false 10 ⟨[]⟩).2 rfl

/-- C7: a missing external formatter is non-fatal — `model2c` still returns
the same external-weight names and statefulness flag as a run with the
formatter available, records a single warning that names both unformatted
files, and has already written `F.c` and `F.h` with their unformatted
(generated) contents. -/
theorem c7_formatter_nonfatal (wg : WeightsGen) (lg : LayersGen)
    (fmtExt : String → String) (m : KModel) (F : String) (malloc : Bool)
    (fs : FS) :
    (model2c wg lg fmtExt false m F malloc fs).extVars =
      (model2c wg lg fmtExt true m F malloc fs).extVars ∧
    (model2c wg lg fmtExt false m F malloc fs).stateful =
      (model2c wg lg fmtExt true m F malloc fs).stateful ∧
    (model2c wg lg fmtExt false m F malloc fs).warnings = [astyleWarning F] ∧
    StrIn (F ++ ".h") (astyleWarning F) ∧
    StrIn (F ++ ".c") (astyleWarning F) ∧
    (model2c wg lg fmtExt false m F malloc fs).fs.lookupLast (F ++ ".c") =
      some (m2cSrcText wg lg m F malloc fs) ∧
    (model2c wg lg fmtExt false m F malloc fs).fs.lookupLast (F ++ ".h") =
      some (m2cHdrText wg m F malloc fs) := by
  refine ⟨by simp [model2c], by simp [model2c], by simp [model2c], ?_, ?_, ?_, ?_⟩
  · unfold astyleWarning
    exact StrIn.of_append_left _ (StrIn.of_append_left _
      (StrIn.of_append_left _ (StrIn.of_append_right _ (StrIn_refl _))))
  · unfold astyleWarning
    exact StrIn.of_append_left _ (StrIn.of_append_right _ (StrIn_refl _))
  · simp only [model2c, Bool.false_eq_true, if_false]
    rw [FS.lookupLast_write_other _ _ _ _ (strAppend_ne F (by decide)),
      FS.lookupLast_write_self]
  · simp only [model2c, Bool.false_eq_true, if_false]
    rw [FS.lookupLast_write_self]

/-- C2 counterexample: on a model whose first layer is an `InputLayer`
(producing the model input tensor `x`) followed by a layer consuming `x`,
`get_all_io_names` returns only `["y"]` — the name `x`, which appears both as
a layer input and as the model-level input tensor name, is missing from the
result, refuting the claim that every tensor name used anywhere appears. -/
theorem c2_counterexample :
    get_all_io_names ⟨[⟨"InputLayer", ["x"], ["x"]⟩, ⟨"Dense", ["x"], ["y"]⟩],
        [⟨"x"⟩], [⟨"y"⟩]⟩ = Except.ok ["y"] ∧
    "x" ∈ specAllNames ⟨[⟨"InputLayer", ["x"], ["x"]⟩, ⟨"Dense", ["x"], ["y"]⟩],
        [⟨"x"⟩], [⟨"y"⟩]⟩ ∧
    "x" ∉ (["y"] : List String) := by
  refine ⟨?_, by decide, by decide⟩
  rfl

/-- C2 amended: `get_all_io_names` returns a duplicate-free list whose members
are exactly the names collected by the code's traversal — the first layer's
input and output names plus every layer's output names (as reported by
`get_layer_io_names`); names appearing only as inputs of later layers, in
particular the model-level input name when the first layer is of the input
kind, may be absent. -/
theorem c2_all_io_names_amended (m : KModel) (c r : List String)
    (hc : collectAllNames m = Except.ok c)
    (hr : get_all_io_names m = Except.ok r) :
    r.Nodup ∧ ∀ n, n ∈ r ↔ n ∈ c := by
  rw [get_all_io_names_eq_dedup m, hc] at hr
  simp only [Except.map] at hr
  have hrr : c.dedup = r := by
    cases hr
    rfl
  subst hrr
  exact ⟨List.nodup_dedup c, fun n => List.mem_dedup⟩

/-- C2 amended witness: a concrete single-layer model, its collected names and
its deduplicated result. -/
theorem c2_all_io_names_amended_witness :
    (["a", "b"] : List String).Nodup ∧
    (∀ n : String, n ∈ (["a", "b"] : List String) ↔
      n ∈ (["a", "b", "b"] : List String)) :=
  c2_all_io_names_amended ⟨[⟨"Dense", ["a"], ["b"]⟩], [], []⟩ ["a", "b", "b"]
    ["a", "b"] rfl rfl

/-- C3 counterexample: on a merge layer with two inputs, `get_layer_io_names`
raises (the `.input.name` accessor fails) instead of returning the two-element
input-name list, refuting both "never raises" and "returns the layer's
input-tensor-name list for layers with several inputs". -/
theorem c3_counterexample :
    get_layer_io_names ⟨"Add", ["a", "b"], ["c"]⟩ =
      Except.error "AttributeError" ∧
    get_layer_io_names ⟨"Add", ["a", "b"], ["c"]⟩ ≠
      Except.ok (["a", "b"], ["c"]) :=
  ⟨rfl, fun h => nomatch h⟩

/-- C3 amended: `get_layer_io_names` returns empty lists for the input layer
kind; for any other layer with exactly one input and one output tensor it
returns the singleton name lists; and for any other layer whose input or
output cannot be determined as a single tensor (none, or several as in merge
layers, on either side) it raises an attribute error rather than returning a
list. -/
theorem c3_layer_io_names_amended (l : KLayer) :
    (layer_type l = "InputLayer" → get_layer_io_names l = Except.ok ([], [])) ∧
    (layer_type l ≠ "InputLayer" → ∀ i o, l.inputs = [i] → l.outputs = [o] →
      get_layer_io_names l = Except.ok ([i], [o])) ∧
    (layer_type l ≠ "InputLayer" →
      ((∀ i, l.inputs ≠ [i]) ∨ (∀ o, l.outputs ≠ [o])) →
      get_layer_io_names l = Except.error "AttributeError") := by
  refine ⟨?_, ?_, ?_⟩
  · intro h
    simp [get_layer_io_names, h]
  · intro h i o hi ho
    simp [get_layer_io_names, h, inputName, outputName, hi, ho, Bind.bind,
      Except.bind]
  · intro h hio
    simp only [get_layer_io_names, if_neg h]
    rcases hio with hi | ho
    · cases hl : l.inputs with
      | nil => simp [Bind.bind, Except.bind, inputName, hl]
      | cons a t =>
        cases t with
        | nil => exact absurd hl (hi a)
        | cons b u => simp [Bind.bind, Except.bind, inputName, hl]
    · cases hl : l.inputs with
      | nil => simp [Bind.bind, Except.bind, inputName, hl]
      | cons a t =>
        cases t with
        | nil =>
          cases hout : l.outputs with
          | nil =>
            simp [Bind.bind, Except.bind, inputName, outputName, hl, hout]
          | cons c v =>
            cases v with
            | nil => exact absurd hout (ho c)
            | cons d w =>
              simp [Bind.bind, Except.bind, inputName, outputName, hl, hout]
        | cons b u => simp [Bind.bind, Except.bind, inputName, hl]

/-- C3 amended witness: a concrete single-input dense layer yields its
singleton name lists. -/
theorem c3_layer_io_names_amended_witness :
    get_layer_io_names ⟨"Dense", ["x"], ["y"]⟩ = Except.ok (["x"], ["y"]) :=
  (c3_layer_io_names_amended ⟨"Dense", ["x"], ["y"]⟩).2.1 (by decide) "x" "y"
    rfl rfl

/-- C8 counterexample: the payload written for a two-element external weight
group is newline-separated, not comma-separated — `np.savetxt` writes a 1-D
array as one `%.8e` value per line and never emits the `delimiter`.  The file
name `F ++ key ++ ".csv"` is as claimed, but the content of the two-value
payload contains no comma at all. -/
theorem c8_counterexample :
    ( gen_function_initialize "f" [("w", [1, 2])] ⟨[]⟩).2.2.files =
      [("fw.csv", "1.00000000e+00\n2.00000000e+00\n")] ∧
    ¬ StrIn "," "1.00000000e+00\n2.00000000e+00\n" := by
  constructor
  · rw [genInit_files]
    simp only [List.map_cons, List.map_nil, savetxt1D, strConcat, fmt8e_one,
      fmt8e_two]
    decide
  · decide

/-- C8 amended: for every external weight group `(k, v)` in a compilation with
function name `F`, a payload file named `F ++ k ++ ".csv"` is written holding
the flattened values serialized one `%.8e` value per line
(newline-separated); the initialize function contains one statement loading
that payload with element count `v.length` into freshly allocated memory bound
to the pointer `k`, and the terminate function contains one `free(k)`
statement per group. -/
theorem c8_payloads_amended (F : String) (mv : List (String × List ℚ))
    (fs : FS) :
    ( gen_function_initialize F mv fs).2.2.files =
      fs.files ++ mv.map (fun kv => (F ++ kv.1 ++ ".csv", savetxt1D kv.2)) ∧
    (∀ k v, (k, v) ∈ mv →
      StrIn (loadStmt F k v.length) ( gen_function_initialize F mv fs).2.1 ∧
      StrIn (freeStmt k) (gen_function_terminate F (mv.map Prod.fst)).2) := by
  refine ⟨genInit_files F mv fs, ?_⟩
  intro k v hmem
  constructor
  · have hin : loadStmt F k v.length ∈
        mv.map (fun kv => loadStmt F kv.1 kv.2.length) :=
      List.mem_map.mpr ⟨(k, v), hmem, rfl⟩
    have h := StrIn_strConcat_of_mem hin
    simp only [ gen_function_initialize]
    exact StrIn.of_append_left _ (StrIn.of_append_right _ h)
  · have hin : freeStmt k ∈ (mv.map Prod.fst).map freeStmt := by
      refine List.mem_map.mpr ⟨k, ?_, rfl⟩
      exact List.mem_map.mpr ⟨(k, v), hmem, rfl⟩
    have h := StrIn_strConcat_of_mem hin
    simp only [gen_function_terminate]
    exact StrIn.of_append_left _ (StrIn.of_append_right _ h)

/-- C8 amended witness: a concrete single-group compilation has its load and
free statements in the generated initialize and terminate bodies. -/
theorem c8_payloads_amended_witness :
    StrIn (loadStmt "g" "v" 1) ( gen_function_initialize "g" [("v", [3])] ⟨[]⟩).2.1 ∧
    StrIn (freeStmt "v") (gen_function_terminate "g" ["v"]).2 :=
  (c8_payloads_amended "g" [("v", [3])] ⟨[]⟩).2 "v" [3]
    (List.mem_singleton.mpr rfl)

/-- C5: the model is flagged stateful exactly when the static/persistent
declaration partition returned by the weight-externalization step is
non-empty, and the emitted translation unit and header contain the reset
function `F_reset_states` exactly when the model is stateful (stated for the
unformatted artifacts; the hypotheses say the reset name does not accidentally
occur in the opaque generated parts, which the reset emitter alone
introduces). -/
theorem c5_stateful_reset (wg : WeightsGen) (lg : LayersGen)
    (fmtExt : String → String) (m : KModel) (F : String) (malloc : Bool)
    (fs : FS)
    (hsrc : ¬ StrIn (F ++ "_reset_states") (m2cSrcBody wg lg m F malloc fs))
    (hhdr : ¬ StrIn (F ++ "_reset_states") (m2cHdrBody wg m F malloc fs)) :
    ((model2c wg lg fmtExt false m F malloc fs).stateful = true ↔
      (wg m F malloc).2.2 ≠ "") ∧
    (model2c wg lg fmtExt false m F malloc fs).fs.lookupLast (F ++ ".c") =
      some (m2cSrcText wg lg m F malloc fs) ∧
    (model2c wg lg fmtExt false m F malloc fs).fs.lookupLast (F ++ ".h") =
      some (m2cHdrText wg m F malloc fs) ∧
    (StrIn (F ++ "_reset_states") (m2cSrcText wg lg m F malloc fs) ↔
      (wg m F malloc).2.2 ≠ "") ∧
    (StrIn (F ++ "_reset_states") (m2cHdrText wg m F malloc fs) ↔
      (wg m F malloc).2.2 ≠ "") := by
  have hst : (model2c wg lg fmtExt false m F malloc fs).stateful =
      m2cStateful wg m F malloc := by
    simp [model2c]
  refine ⟨?_, ?_, ?_, ?_, ?_⟩
  · rw [hst]
    exact m2cStateful_iff wg m F malloc
  · simp only [model2c, Bool.false_eq_true, if_false]
    rw [FS.lookupLast_write_other _ _ _ _ (strAppend_ne F (by decide)),
      FS.lookupLast_write_self]
  · simp only [model2c, Bool.false_eq_true, if_false]
    rw [FS.lookupLast_write_self]
  · by_cases h : (wg m F malloc).2.2 = ""
    · have hflag : m2cStateful wg m F malloc = false := by
        rw [Bool.eq_false_iff]
        intro hc
        exact absurd h ((m2cStateful_iff wg m F malloc).mp hc)
      constructor
      · intro hmem
        unfold m2cSrcText at hmem
        rw [hflag] at hmem
        simp only [Bool.false_eq_true, if_false, String.append_empty] at hmem
        exact absurd hmem hsrc
      · intro hne
        exact absurd h hne
    · have hflag : m2cStateful wg m F malloc = true :=
        (m2cStateful_iff wg m F malloc).mpr h
      constructor
      · intro _
        exact h
      · intro _
        unfold m2cSrcText
        rw [hflag]
        simp only [if_true]
        exact StrIn.of_append_right _ (StrIn_reset_fun F)
  · by_cases h : (wg m F malloc).2.2 = ""
    · have hflag : m2cStateful wg m F malloc = false := by
        rw [Bool.eq_false_iff]
        intro hc
        exact absurd h ((m2cStateful_iff wg m F malloc).mp hc)
      constructor
      · intro hmem
        unfold m2cHdrText at hmem
        rw [hflag] at hmem
        simp only [Bool.false_eq_true, if_false, String.append_empty] at hmem
        exact absurd hmem hhdr
      · intro hne
        exact absurd h hne
    · have hflag : m2cStateful wg m F malloc = true :=
        (m2cStateful_iff wg m F malloc).mpr h
      constructor
      · intro _
        exact h
      · intro _
        unfold m2cHdrText
        rw [hflag]
        simp only [if_true]
        exact StrIn.of_append_right _
          (StrIn.of_append_left _ (StrIn_reset_sig F))

/-- C5 witness: a concrete compilation with a non-empty static partition is
flagged stateful and both artifacts mention `f_reset_states`; the hypotheses
are discharged by computing the concrete artifact bodies. -/
theorem c5_stateful_reset_witness :
    ((model2c (fun _ _ _ => ("", [], "s")) (fun _ _ => "") id false
        ⟨[], [], []⟩ "f" false ⟨[]⟩).stateful = true ↔ ("s" : String) ≠ "") ∧
    (StrIn ("f" ++ "_reset_states")
      (m2cSrcText (fun _ _ _ => ("", [], "s")) (fun _ _ => "") ⟨[], [], []⟩
        "f" false ⟨[]⟩) ↔ ("s" : String) ≠ "") := by
  have h := c5_stateful_reset (fun _ _ _ => ("", [], "s")) (fun _ _ => "") id
    ⟨[], [], []⟩ "f" false ⟨[]⟩ (by decide) (by decide)
  exact ⟨h.1, h.2.2.2.1⟩

/-- C1 counterexample: the value `8192003/8192 = 1000 + 3·2⁻¹³` (exactly
representable as a binary float32, hence a possible Parameter Tensor value)
round-trips through `%.8e` with absolute error about `3.8·10⁻⁶`, exceeding
the claimed `10⁻⁷` bound: it serializes as `1.00000037e+03`, which parses
back to `1000.00037`. -/
theorem c1_counterexample :
    1 / 10 ^ 7 < |savetxtRT (8192003 / 8192) - 8192003 / 8192| := by
  have hfl : ⌊(8192003 / 8192 : ℚ)⌋₊ = 1000 :=
    natFloor_eval _ 1000 (by norm_num) (by norm_num)
  have hlog : Int.log 10 ((8192003 : ℚ) / 8192) = 3 := by
    have h := intLog_eval ((8192003 : ℚ) / 8192) 1000 3 (by norm_num) hfl
      (by norm_num) (by norm_num)
    exact_mod_cast h
  have hz : zpow10 ((8 : ℤ) - 3) = (100000 : ℚ) := by
    rw [zpow10_eq]
    norm_num
  have hr : round ((8192003 / 8192 : ℚ) * zpow10 (8 - 3)) = 100000037 := by
    rw [hz]
    exact round_rat_eq _ _ (by norm_num) (by norm_num)
  have hrt : savetxtRT (8192003 / 8192) = (100000037 : ℤ) * zpow10 (3 - 8) :=
    savetxtRT_pos_eval _ 3 100000037 (by norm_num) hlog hr
  rw [hrt]
  have hz2 : zpow10 ((3 : ℤ) - 8) = (100000 : ℚ)⁻¹ := by
    rw [zpow10_eq]
    norm_num
  rw [hz2, abs_of_pos (by norm_num)]
  norm_num

/-- C1 amended: the `%.8e` round trip of any non-zero value keeps the relative
error below `5·10⁻⁹` — i.e. it preserves at least 8 significant decimal
digits, as claimed — and the claimed `10⁻⁷` absolute-error bound holds for
values of magnitude below `100` (the counterexample shows it fails above). -/
theorem c1_roundtrip_amended (x : ℚ) (hx : x ≠ 0) :
    |savetxtRT x - x| ≤ |x| / (2 * 10 ^ 8) ∧
    (|x| < 100 → |savetxtRT x - x| ≤ 1 / 10 ^ 7) := by
  have habs : (0 : ℚ) < |x| := abs_pos.mpr hx
  have hkey := savetxtRT_abs_sub x hx
  have hlog := @Int.zpow_log_le_self ℚ _ _ 10 |x| (by norm_num) habs
  constructor
  · refine le_trans hkey ?_
    calc (1 / 2 : ℚ) * (10 : ℚ) ^ (Int.log 10 |x| - 8)
        = (10 : ℚ) ^ (Int.log 10 |x|) * (1 / (2 * (10 : ℚ) ^ (8 : ℤ))) := by
          rw [zpow_sub₀ (by norm_num : (10 : ℚ) ≠ 0)]
          ring
      _ ≤ |x| * (1 / (2 * (10 : ℚ) ^ (8 : ℤ))) := by
          apply mul_le_mul_of_nonneg_right hlog
          positivity
      _ = |x| / (2 * 10 ^ 8) := by
          have h8 : ((10 : ℚ) ^ (8 : ℤ)) = 10 ^ (8 : ℕ) := by norm_num
          rw [h8]
          ring
  · intro hlt
    have he1 : Int.log 10 |x| ≤ 1 := by
      by_contra hcon
      push_neg at hcon
      have h2e : (2 : ℤ) ≤ Int.log 10 |x| := by omega
      have hm : (10 : ℚ) ^ (2 : ℤ) ≤ (10 : ℚ) ^ (Int.log 10 |x|) :=
        zpow_le_zpow_right₀ (by norm_num) h2e
      have h100 : (10 : ℚ) ^ (2 : ℤ) = 100 := by norm_num
      have : (100 : ℚ) ≤ |x| := by
        rw [← h100]
        exact le_trans hm hlog
      linarith
    refine le_trans hkey ?_
    have hmono : (10 : ℚ) ^ (Int.log 10 |x| - 8) ≤ (10 : ℚ) ^ (-7 : ℤ) :=
      zpow_le_zpow_right₀ (by norm_num) (by omega)
    have h7 : ((10 : ℚ) ^ (-7 : ℤ)) = 1 / 10 ^ 7 := by norm_num
    calc (1 / 2 : ℚ) * (10 : ℚ) ^ (Int.log 10 |x| - 8)
        ≤ (1 / 2) * (10 : ℚ) ^ (-7 : ℤ) :=
          mul_le_mul_of_nonneg_left hmono (by norm_num)
      _ ≤ 1 / 10 ^ 7 := by
          rw [h7]
          norm_num

/-- C1 amended witness: the value `3` round-trips exactly, within both
bounds. -/
theorem c1_roundtrip_amended_witness :
    |savetxtRT 3 - 3| ≤ |(3 : ℚ)| / (2 * 10 ^ 8) ∧
    |savetxtRT 3 - 3| ≤ 1 / 10 ^ 7 := by
  have h := c1_roundtrip_amended 3 (by norm_num)
  exact ⟨h.1, h.2 (by norm_num)⟩

end K2C

